import Mathlib

/-!
Verification of the centr-servisov crawler (src/main.py): a shallow
embedding of the entity registry, the field extractors and the
persistence stage, with proofs about the spec's claims.

String-manipulating Python primitives (`removeprefix`, `split`, `rsplit`,
the substring test `in`) are embedded as structural recursions over
`List Char` so that every definition evaluates by `decide`.
-/

set_option maxRecDepth 8000

/-- Python `pre in hay` on character lists: some suffix of `hay` starts
with `needle`. -/
def listContainsSub (hay needle : List Char) : Bool :=
  needle.isPrefixOf hay ||
    match hay with
    | [] => false
    | _ :: t => listContainsSub t needle

/-- Python substring test `needle in hay` on strings. -/
def strContains (hay needle : String) : Bool :=
  listContainsSub hay.data needle.data

/-- Python `s.removeprefix(pre)`: drop `pre` when `s` starts with it. -/
def dropPre (s pre : String) : String :=
  if pre.data.isPrefixOf s.data then ⟨s.data.drop pre.data.length⟩ else s

/-- Split a character list at every character satisfying `p`
(Python `str.split` with a one-character separator keeps empty parts). -/
def splitPred (p : Char → Bool) : List Char → List (List Char)
  | [] => [[]]
  | c :: rest =>
    match splitPred p rest with
    | [] => if p c then [[], []] else [[c]]
    | g :: gs => if p c then [] :: g :: gs else (c :: g) :: gs

/-- Python `s.split(sep, 1)`: split at the first occurrence of `sep`;
`none` when `sep` does not occur (where Python's tuple unpacking raises). -/
def split1Go (sep : List Char) (l : List Char) : Option (List Char × List Char) :=
  match l with
  | [] => none
  | c :: rest =>
    if sep.isPrefixOf (c :: rest) then some ([], (c :: rest).drop sep.length)
    else
      match split1Go sep rest with
      | some (b, a) => some (c :: b, a)
      | none => none

/-- Python `s.rsplit(sep, 1)`: split at the last occurrence of `sep`;
`none` when `sep` does not occur (where Python's tuple unpacking raises). -/
def rsplitGo (sep : List Char) (l : List Char) : Option (List Char × List Char) :=
  match l with
  | [] => none
  | c :: rest =>
    match rsplitGo sep rest with
    | some (b, a) => some (c :: b, a)
    | none =>
      if sep.isPrefixOf (c :: rest) then some ([], (c :: rest).drop sep.length)
      else none

/-- Python `list.index` returning an `Option` instead of raising. -/
def listIndex? (l : List (List Char)) (x : List Char) : Option Nat :=
  match l with
  | [] => none
  | a :: l => if a == x then some 0 else (listIndex? l x).map (· + 1)

/-- `Option`-valued traversal of a list (Python raises where this is `none`). -/
def mapOpt {α β : Type} (f : α → Option β) : List α → Option (List β)
  | [] => some []
  | a :: l =>
    match f a with
    | none => none
    | some b =>
      match mapOpt f l with
      | none => none
      | some bs => some (b :: bs)

/-- The seven weekday symbols of `add_opening_hour`, Monday first. -/
def weekdays_names : List (List Char) :=
  ["ПН".data, "ВТ".data, "СР".data, "ЧТ".data, "ПТ".data, "СБ".data, "ВС".data]

/-- The ordinal a weekday symbol is mapped to:
`weekdays_names.index(day) + 1` in the source. -/
def weekdayOrdinal (day : List Char) : Option Nat :=
  (listIndex? weekdays_names day).map (· + 1)

/-- One parsed opening-hours record, as appended to `sc['opening_hours']`. -/
structure OpeningHourRec where
  weekday_from : Nat
  weekday_to : Nat
  time_from : Option String
  time_to : Option String
  deriving DecidableEq, Repr

/-- `add_opening_hour` from src/main.py: parse a stripped hour token into the
record appended to the service center's `opening_hours` list; `none` exactly
where the Python code would raise (no " - " separator, an unknown weekday
symbol, or an empty time list). -/
def add_opening_hour (text : String) : Option OpeningHourRec :=
  match rsplitGo " - ".data text.data with
  | none => none
  | some (weekdaysStr, timesStr) =>
    let weekdayToks := splitPred (fun c => c == '-') weekdaysStr
    let timeToks := (splitPred Char.isWhitespace timesStr).filter (· != [])
    match mapOpt weekdayOrdinal weekdayToks with
    | none => none
    | some weekdays =>
      let times : List (Option String) :=
        if timeToks.contains "Круглосуточно".data then [some "00:00", some "00:00"]
        else if timeToks.contains "Выходной".data then [none, none]
        else (timeToks.filter (fun t => t.contains ':')).map (fun t => some ⟨t⟩)
      match weekdays.head?, weekdays.getLast?, times.head?, times.getLast? with
      | some wf, some wt, some tf, some tt =>
        some { weekday_from := wf, weekday_to := wt, time_from := tf, time_to := tt }
      | _, _, _, _ => none

/-- Category kind: the two module-level category registries of src/main.py. -/
inductive CatType where
  | devices
  | brands
  deriving DecidableEq, Repr

/-- One row of a device category's flat price list (`add_service`). -/
structure ServiceRec where
  title : String
  price : String
  deriving DecidableEq, Repr

/-- The category dict built by `add_category`.  `brandsSet` and `services`
model the `'brands'`/`'services'` keys that are added only when the
category type is `devices` (hence `Option`). -/
structure Category where
  title : String
  slug : String
  type : CatType
  thumbnail_url : Option String
  is_popular : Bool
  brandsSet : Option (List String)
  services : Option (List ServiceRec)
  deriving DecidableEq, Repr

/-- An `<img>` tag as read by `add_category`/`get_category_title`:
its `alt` text and the optional `src`/`data-src` attributes. -/
structure ImgTag where
  alt : String
  src : Option String
  dataSrc : Option String
  deriving DecidableEq, Repr

/-- A category anchor tag: its stripped text and an optional nested image. -/
structure AnchorTag where
  text : String
  img : Option ImgTag
  deriving DecidableEq, Repr

/-- Python `s.startswith(pre)`. -/
def strStarts (s pre : String) : Bool :=
  pre.data.isPrefixOf s.data

/-- `get_category_title` from src/main.py: prefer the image caption when it
starts with the logo marker, else the anchor's visible text. -/
def get_category_title (category_tag : AnchorTag) : String :=
  match category_tag.img with
  | some image =>
    if strStarts image.alt "Логотип" then dropPre image.alt "Логотип "
    else category_tag.text
  | none => category_tag.text

/-- Modelled from the spec: the external `slugify` library (not part of this
repository) is required only to be a deterministic normalization of source
text ("Every natural key is derived deterministically from source text
(normalized/slugified)").  Embedded as: lowercase, split on
non-alphanumeric characters, join the nonempty groups with hyphens. -/
def slugify (s : String) : String :=
  ⟨List.intercalate ['-']
    ((splitPred (fun c => !c.isAlphanum) (s.data.map Char.toLower)).filter (· != []))⟩

/-- Python dict lookup `d.get(k)` on an insertion-ordered dict. -/
def pyLookup {β : Type} (d : List (String × β)) (k : String) : Option β :=
  match d with
  | [] => none
  | p :: rest => if p.1 = k then some p.2 else pyLookup rest k

/-- The two module-level category registries (`brands` and `devices`),
each an insertion-ordered map from slug to category dict. -/
structure CatRegs where
  brands : List (String × Category)
  devices : List (String × Category)
  deriving DecidableEq, Repr

/-- The category dict constructed inside `add_category` before the
registry check. -/
def mkCategory (category_type : CatType) (category_tag : AnchorTag) : Category :=
  let title := get_category_title category_tag
  let base : Category := {
    title := title
    slug := slugify title
    type := category_type
    thumbnail_url := none
    is_popular := false
    brandsSet := none
    services := none }
  let withThumb :=
    match category_tag.img with
    | some thumbnail =>
      match thumbnail.src with
      | some thumbnail_url => { base with thumbnail_url := some thumbnail_url }
      | none =>
        match thumbnail.dataSrc with
        | some thumbnail_url => { base with thumbnail_url := some thumbnail_url }
        | none => base
    | none => base
  if category_type = CatType.devices then
    { withThumb with brandsSet := some [], services := some [] }
  else withThumb

/-- `add_category` from src/main.py: build the category dict, store it in the
global registry of its type only when its slug is unseen, and return the
(freshly built) dict. -/
def add_category (category_type : CatType) (category_tag : AnchorTag) (regs : CatRegs) :
    CatRegs × Category :=
  let category := mkCategory category_type category_tag
  match category_type with
  | CatType.devices =>
    if (pyLookup regs.devices category.slug).isSome then (regs, category)
    else ({ regs with devices := regs.devices ++ [(category.slug, category)] }, category)
  | CatType.brands =>
    if (pyLookup regs.brands category.slug).isSome then (regs, category)
    else ({ regs with brands := regs.brands ++ [(category.slug, category)] }, category)

/-- `add_popular_brand` from src/main.py: derive the target slug from the
anchor and set `is_popular` on every registry entry whose key equals it. -/
def add_popular_brand (brand_tag : AnchorTag) (brands : List (String × Category)) :
    List (String × Category) :=
  let target_slug := slugify (get_category_title brand_tag)
  brands.map (fun p => if p.1 = target_slug then (p.1, { p.2 with is_popular := true }) else p)

/-- One location record as appended to `sc['locations']` by `add_location`. -/
structure LocationRec where
  coords : Option String
  metro : String
  address : String
  is_primary : Bool
  deriving DecidableEq, Repr

/-- The service-center dict of `add_service_center`.  The scalar fields
`title`/`phone`/`slogan`/`logo`/`site_url`/`description` are absent from the
dict until detail-page enrichment sets them, hence `Option` with `none` at
creation.  Relationship sets are modelled as duplicate-free lists. -/
structure SC where
  slug : String
  title : Option String
  phone : Option String
  slogan : Option String
  logo : Option String
  site_url : Option String
  description : Option String
  advantages : List String
  brands : List String
  devices : List String
  features : List String
  metros : List String
  gallery : List String
  locations : List LocationRec
  opening_hours : List OpeningHourRec
  primary_address : Option String
  deriving DecidableEq, Repr

/-- The fresh dict created by `add_service_center` on first sighting. -/
def newSC (slug : String) : SC :=
  { slug := slug
    title := none, phone := none, slogan := none, logo := none
    site_url := none, description := none
    advantages := [], brands := [], devices := [], features := [], metros := []
    gallery := [], locations := [], opening_hours := []
    primary_address := none }

/-- Python `set.add`: insert into a set, a no-op when already present. -/
def setAdd (s : List String) (x : String) : List String :=
  if x ∈ s then s else s ++ [x]

/-- `sc[category['type']].add(category['slug'])`: add the category's slug to
the relationship set selected by the category's type. -/
def addCategoryMembership (sc : SC) (category : Category) : SC :=
  match category.type with
  | CatType.devices => { sc with devices := setAdd sc.devices category.slug }
  | CatType.brands => { sc with brands := setAdd sc.brands category.slug }

/-- A service-center listing card.  `add_service_center` reads only the
title; the card's remaining keys (link, metro tags, hour tags, address hint)
feed the enrichment stage, abstracted in `parse_service_center` below. -/
structure SCCard where
  title : String
  deriving DecidableEq, Repr

/-- In-place mutation of the dict stored under `slug`:
the registry keeps its keys, the value under `slug` becomes `sc`. -/
def updateSC (regs : List (String × SC)) (slug : String) (sc : SC) :
    List (String × SC) :=
  regs.map (fun p => if p.1 = slug then (slug, sc) else p)

/-- `add_service_center` from src/main.py: upsert by `slugify(title)` into the
`service_centers` registry, then add the category membership to the (stored)
entity; returns the entity and the `created` flag. -/
def add_service_center (sc_card : SCCard) (category : Category)
    (regs : List (String × SC)) : List (String × SC) × SC × Bool :=
  let slug := slugify sc_card.title
  match pyLookup regs slug with
  | some sc0 =>
    let sc := addCategoryMembership sc0 category
    (updateSC regs slug sc, sc, false)
  | none =>
    let sc := addCategoryMembership (newSC slug) category
    (regs ++ [(slug, sc)], sc, true)

/-- Control skeleton of `parse_service_center` from src/main.py: the registry
upsert, the early return when `added` is false, and otherwise the one-time
detail-page enrichment.  The enrichment (metros, hours, address, locations,
features, advantages, title, phone, gallery, ...) mutates fields of the
stored `sc` object and never changes the set of registry keys, so it is
abstracted as a function `enrich` rewriting the stored entity in place.
Returns the updated registry and whether enrichment ran. -/
def parse_service_center (enrich : SC → SC) (regs : List (String × SC))
    (sc_card : SCCard) (category : Category) : List (String × SC) × Bool :=
  let r := add_service_center sc_card category regs
  if r.2.2 then (updateSC r.1 r.2.1.slug (enrich r.2.1), true) else (r.1, false)

/-- A sequence of `parse_service_center` calls (the concurrent listing-page
traversal has no suspension point inside `add_service_center`, so its
interleaving is a sequence of these calls); collects the `created` flags. -/
def runParse (enrich : SC → SC) (regs : List (String × SC)) :
    List (SCCard × Category) → List (String × SC) × List Bool
  | [] => (regs, [])
  | (c, cat) :: rest =>
    let r1 := parse_service_center enrich regs c cat
    let r2 := runParse enrich r1.1 rest
    (r2.1, r1.2 :: r2.2)

/-- The title normalization at the head of `add_metro`: strip the
"метро " prefix, rewrite the one renamed station. -/
def metroTitle (metro_text : String) : String :=
  let title := dropPre metro_text "метро "
  if title = "Новокрестовская" then "Зенит" else title

/-- Python `d[k] = v` on an insertion-ordered dict. -/
def dictSet (d : List (String × String)) (k v : String) : List (String × String) :=
  if (pyLookup d k).isSome then d.map (fun p => if p.1 = k then (k, v) else p)
  else d ++ [(k, v)]

/-- `add_metro` from src/main.py: normalize the title, store it in the
module-level `metros` registry (title ↦ {'title': title}) and add it to the
center's metro set. -/
def add_metro (sc : SC) (metrosReg : List (String × String)) (metro_text : String) :
    SC × List (String × String) :=
  let title := metroTitle metro_text
  ({ sc with metros := setAdd sc.metros title }, dictSet metrosReg title title)

/-- The primary-flag line of `add_location`: the truthiness test
`if sc['primary_address']:` (None and "" are falsy) guarding
`location['is_primary'] = sc['primary_address'] in address`. -/
def locWithPrimary (sc : SC) (loc : LocationRec) : LocationRec :=
  match sc.primary_address with
  | some pa => if pa ≠ "" then { loc with is_primary := strContains loc.address pa } else loc
  | none => loc

/-- One step of the coordinate-binding loop of `add_location`: overwrite
`coords` whenever the record's address text contains the location's
address. -/
def bindCoordsStep (l : LocationRec) (ca : String × String) : LocationRec :=
  if strContains ca.2 l.address then { l with coords := some ca.1 } else l

/-- `add_location` from src/main.py: split "metro-address" at the first
hyphen, strip the metro prefix, set the primary flag from the card's address
hint, then run the coordinate-binding loop over the page's
(coordinates, address-text) records — extracted by the `Placemark` regex
from the page head, here taken as an argument — and append the location.
`none` where Python's tuple unpacking would raise (no hyphen). -/
def add_location (sc : SC) (location_text : String)
    (coords_addresses : List (String × String)) : Option SC :=
  match split1Go "-".data location_text.data with
  | none => none
  | some (metroCs, addressCs) =>
    let loc0 : LocationRec := {
      coords := none
      metro := dropPre ⟨metroCs⟩ "метро "
      address := ⟨addressCs⟩
      is_primary := false }
    let loc2 := coords_addresses.foldl bindCoordsStep (locWithPrimary sc loc0)
    some { sc with locations := sc.locations ++ [loc2] }

/-- The binding rule as the spec words it (for comparison with the code):
"the first coordinate record whose associated address text contains the
location's address string is bound". -/
def coordsFirstMatchSpec (coords_addresses : List (String × String))
    (address : String) : Option String :=
  ((coords_addresses.filter (fun ca => strContains ca.2 address)).head?).map Prod.fst

/-- The binding the code actually computes: the last matching record. -/
def coordsLastMatch (coords_addresses : List (String × String))
    (address : String) : Option String :=
  ((coords_addresses.filter (fun ca => strContains ca.2 address)).getLast?).map Prod.fst

/-- `get_insert_query` from src/main.py: the SQL text used by every
`insert_*` function. -/
def get_insert_query (table : String) (fields : List String) : String :=
  "INSERT OR IGNORE INTO " ++
    (table ++ (" (\n        " ++
      (String.intercalate ", " fields ++ ("\n    ) VALUES (\n        " ++
        (String.intercalate ", " (fields.map (fun f => ":" ++ f)) ++ "\n    )")))))

/-- Is a row with the given uniqueness-constraint value already present? -/
def hasKey {α K : Type} [DecidableEq K] (key : α → K) (t : List α) (k : K) : Bool :=
  t.any (fun r2 => decide (key r2 = k))

/-- The storage contract of §6 for one row: INSERT OR IGNORE against the
declared uniqueness constraint `key` — a row whose key is already present
is silently skipped, otherwise it is appended. -/
def insertOrIgnoreRow {α K : Type} [DecidableEq K] (key : α → K) (t : List α) (r : α) :
    List α :=
  if hasKey key t (key r) then t else t ++ [r]

/-- `executemany` of the `get_insert_query` statement over a row list. -/
def executemanyIgnore {α K : Type} [DecidableEq K] (key : α → K) (t : List α)
    (rows : List α) : List α :=
  rows.foldl (insertOrIgnoreRow key) t

/-- One row of the `locations` table. -/
structure LocRow where
  service_center_id : Nat
  metro_id : Option Nat
  address : String
  coords : Option String
  is_primary : Bool
  deriving DecidableEq, Repr

/-- The declared uniqueness constraint of `locations`:
UNIQUE (service_center_id, metro_id, address). -/
def locKey (r : LocRow) : Nat × Option Nat × String :=
  (r.service_center_id, r.metro_id, r.address)

/-- Storing one row into `locations` under INSERT OR IGNORE: both the
NOT NULL constraint on `metro_id` and the UNIQUE constraint make IGNORE
silently skip the offending row (SQLite OR IGNORE semantics, §6). -/
def insertLocRow (t : List LocRow) (r : LocRow) : List LocRow :=
  if r.metro_id = none then t
  else insertOrIgnoreRow locKey t r

/-- Python dict subscripting `m[k]`: `KeyError` (carrying the key) when
absent. -/
def lookupE (m : List (String × Nat)) (k : String) : Except String Nat :=
  match pyLookup m k with
  | some v => Except.ok v
  | none => Except.error k

/-- Left-to-right traversal that stops at the first `KeyError`, as a Python
list comprehension does. -/
def mapE {α β : Type} (f : α → Except String β) : List α → Except String (List β)
  | [] => Except.ok []
  | a :: l =>
    match f a with
    | Except.error e => Except.error e
    | Except.ok b =>
      match mapE f l with
      | Except.error e => Except.error e
      | Except.ok bs => Except.ok (b :: bs)

/-- The nested iteration `for sc_slug, sc in service_centers.items()
for location in sc['locations']`. -/
def scLocPairs (scs : List (String × SC)) : List (String × LocationRec) :=
  scs.foldr (fun p acc => p.2.locations.map (fun loc => (p.1, loc)) ++ acc) []

/-- `insert_locations` from src/main.py: build one row per location —
`sc_ids_by_slugs[sc_slug]` subscripted (KeyError on a missing slug),
`metro_ids_by_titles.get(...)` (None on a missing metro title) — then
executemany them into the `locations` table. -/
def insert_locations (sc_ids_by_slugs metro_ids_by_titles : List (String × Nat))
    (scs : List (String × SC)) (t : List LocRow) : Except String (List LocRow) :=
  match mapE (fun (p : String × LocationRec) =>
      match lookupE sc_ids_by_slugs p.1 with
      | Except.error e => Except.error e
      | Except.ok scId => Except.ok {
          service_center_id := scId
          metro_id := pyLookup metro_ids_by_titles p.2.metro
          address := p.2.address
          coords := p.2.coords
          is_primary := p.2.is_primary : LocRow })
    (scLocPairs scs) with
  | Except.error e => Except.error e
  | Except.ok rows => Except.ok (rows.foldl insertLocRow t)

/-- One row of the `metro_service_center` junction table. -/
structure MetroScRow where
  service_center_id : Nat
  metro_id : Nat
  deriving DecidableEq, Repr

/-- The composite primary key of `metro_service_center`. -/
def metroScKey (r : MetroScRow) : Nat × Nat :=
  (r.metro_id, r.service_center_id)

/-- The nested iteration `for sc_slug, sc in service_centers.items()
for metro_title in sc['metros']`. -/
def scMetroPairs (scs : List (String × SC)) : List (String × String) :=
  scs.foldr (fun p acc => p.2.metros.map (fun m => (p.1, m)) ++ acc) []

/-- `insert_service_centers_metros` from src/main.py: build one junction row
per (center, metro) membership, subscripting both id maps — a missing key
raises `KeyError` before anything is written — then executemany into
`metro_service_center`. -/
def insert_service_centers_metros (sc_ids_by_slugs metro_ids_by_titles : List (String × Nat))
    (scs : List (String × SC)) (t : List MetroScRow) : Except String (List MetroScRow) :=
  match mapE (fun (p : String × String) =>
      match lookupE sc_ids_by_slugs p.1 with
      | Except.error e => Except.error e
      | Except.ok scId =>
        match lookupE metro_ids_by_titles p.2 with
        | Except.error e => Except.error e
        | Except.ok mId => Except.ok { service_center_id := scId, metro_id := mId : MetroScRow })
    (scMetroPairs scs) with
  | Except.error e => Except.error e
  | Except.ok rows => Except.ok (rows.foldl (insertOrIgnoreRow metroScKey) t)

/-- One step of `insert_data`, in source order. -/
inductive InsertEvent where
  | createSchema
  | insertTable (table : String)
  | commit (n : Nat)
  | readbackIds (table field : String)
  deriving DecidableEq, Repr

/-- The straight-line body of `insert_data` from src/main.py as its ordered
event trace: schema creation, the five independent entity inserts, a commit,
the service-center insert, a commit, the six id-map read-backs, the ten
relationship/junction inserts, and the final commit. -/
def insert_data_trace : List InsertEvent :=
  [InsertEvent.createSchema,
   InsertEvent.insertTable "brands",
   InsertEvent.insertTable "devices",
   InsertEvent.insertTable "metros",
   InsertEvent.insertTable "advantages",
   InsertEvent.insertTable "features",
   InsertEvent.commit 1,
   InsertEvent.insertTable "service_centers",
   InsertEvent.commit 2,
   InsertEvent.readbackIds "service_centers" "slug",
   InsertEvent.readbackIds "metros" "title",
   InsertEvent.readbackIds "brands" "slug",
   InsertEvent.readbackIds "devices" "slug",
   InsertEvent.readbackIds "advantages" "title",
   InsertEvent.readbackIds "features" "title",
   InsertEvent.insertTable "opening_hours",
   InsertEvent.insertTable "gallery_images",
   InsertEvent.insertTable "services",
   InsertEvent.insertTable "locations",
   InsertEvent.insertTable "brand_service_center",
   InsertEvent.insertTable "device_service_center",
   InsertEvent.insertTable "metro_service_center",
   InsertEvent.insertTable "brand_device",
   InsertEvent.insertTable "advantage_service_center",
   InsertEvent.insertTable "feature_service_center",
   InsertEvent.commit 3]

/-- Position of an event in the `insert_data` trace. -/
def tracePos (e : InsertEvent) : Nat :=
  insert_data_trace.indexOf e

/-- `a` happens strictly before `b` in the `insert_data` trace. -/
def traceBefore (a b : InsertEvent) : Bool :=
  insert_data_trace.contains a && insert_data_trace.contains b &&
    decide (tracePos a < tracePos b)

/-- The five independent entity tables inserted first. -/
def entityTables : List String :=
  ["brands", "devices", "metros", "advantages", "features"]

/-- Each relationship/junction table written by `insert_data`, with the
id-map read-backs its rows depend on. -/
def relationshipTables : List (String × List (String × String)) :=
  [("opening_hours", [("service_centers", "slug")]),
   ("gallery_images", [("service_centers", "slug")]),
   ("services", [("devices", "slug")]),
   ("locations", [("service_centers", "slug"), ("metros", "title")]),
   ("brand_service_center", [("service_centers", "slug"), ("brands", "slug")]),
   ("device_service_center", [("service_centers", "slug"), ("devices", "slug")]),
   ("metro_service_center", [("service_centers", "slug"), ("metros", "title")]),
   ("brand_device", [("brands", "slug"), ("devices", "slug")]),
   ("advantage_service_center", [("service_centers", "slug"), ("advantages", "title")]),
   ("feature_service_center", [("service_centers", "slug"), ("features", "title")])]

/-- The dependency-order checks of claim C8 over the `insert_data` trace. -/
def insertDataOrdered : Bool :=
  (entityTables.all (fun e => traceBefore (InsertEvent.insertTable e) (InsertEvent.commit 1))) &&
  traceBefore (InsertEvent.commit 1) (InsertEvent.insertTable "service_centers") &&
  traceBefore (InsertEvent.insertTable "service_centers") (InsertEvent.commit 2) &&
  (relationshipTables.all (fun rt =>
    traceBefore (InsertEvent.commit 2) (InsertEvent.insertTable rt.1) &&
    rt.2.all (fun rb =>
      traceBefore (InsertEvent.commit 2) (InsertEvent.readbackIds rb.1 rb.2) &&
      traceBefore (InsertEvent.readbackIds rb.1 rb.2) (InsertEvent.insertTable rt.1))))

lemma hasKey_iff {α K : Type} [DecidableEq K] (key : α → K) (t : List α) (k : K) :
    hasKey key t k = true ↔ ∃ r2 ∈ t, key r2 = k := by
  simp [hasKey]

lemma insertOrIgnoreRow_of_hasKey {α K : Type} [DecidableEq K] (key : α → K)
    (t : List α) (r : α) (h : hasKey key t (key r) = true) :
    insertOrIgnoreRow key t r = t := by
  simp [insertOrIgnoreRow, h]

lemma hasKey_insertOrIgnoreRow {α K : Type} [DecidableEq K] (key : α → K)
    (t : List α) (r : α) (k : K) (h : hasKey key t k = true) :
    hasKey key (insertOrIgnoreRow key t r) k = true := by
  unfold insertOrIgnoreRow
  split
  · exact h
  · rw [hasKey_iff] at h ⊢
    obtain ⟨r2, hr2, hk⟩ := h
    exact ⟨r2, List.mem_append_left _ hr2, hk⟩

lemma hasKey_insertOrIgnoreRow_self {α K : Type} [DecidableEq K] (key : α → K)
    (t : List α) (r : α) :
    hasKey key (insertOrIgnoreRow key t r) (key r) = true := by
  by_cases h : hasKey key t (key r) = true
  · rw [insertOrIgnoreRow_of_hasKey key t r h]; exact h
  · unfold insertOrIgnoreRow
    rw [if_neg h, hasKey_iff]
    exact ⟨r, List.mem_append_right _ (List.mem_singleton.mpr rfl), rfl⟩

lemma hasKey_executemany {α K : Type} [DecidableEq K] (key : α → K)
    (t rows : List α) (k : K) (h : hasKey key t k = true) :
    hasKey key (executemanyIgnore key t rows) k = true := by
  induction rows generalizing t with
  | nil => exact h
  | cons r rest ih =>
    have : executemanyIgnore key t (r :: rest) =
        executemanyIgnore key (insertOrIgnoreRow key t r) rest := rfl
    rw [this]
    exact ih _ (hasKey_insertOrIgnoreRow key t r k h)

lemma hasKey_executemany_mem {α K : Type} [DecidableEq K] (key : α → K)
    (t rows : List α) (r : α) (h : r ∈ rows) :
    hasKey key (executemanyIgnore key t rows) (key r) = true := by
  induction rows generalizing t with
  | nil => cases h
  | cons r2 rest ih =>
    have hstep : executemanyIgnore key t (r2 :: rest) =
        executemanyIgnore key (insertOrIgnoreRow key t r2) rest := rfl
    rw [hstep]
    rcases List.mem_cons.mp h with heq | hmem
    · subst heq
      exact hasKey_executemany key _ rest _ (hasKey_insertOrIgnoreRow_self key t r)
    · exact ih _ hmem

lemma executemany_fixed {α K : Type} [DecidableEq K] (key : α → K)
    (t rows : List α) (h : ∀ r ∈ rows, hasKey key t (key r) = true) :
    executemanyIgnore key t rows = t := by
  induction rows with
  | nil => rfl
  | cons r rest ih =>
    have hstep : executemanyIgnore key t (r :: rest) =
        executemanyIgnore key (insertOrIgnoreRow key t r) rest := rfl
    rw [hstep, insertOrIgnoreRow_of_hasKey key t r (h r (List.mem_cons_self r rest))]
    exact ih (fun r2 hr2 => h r2 (List.mem_cons_of_mem r hr2))

/-- C1: every `insert_*` statement built by `get_insert_query` has
insert-or-ignore semantics — the SQL text begins with "INSERT OR IGNORE
INTO" — and under the store's ignore-on-conflict contract an already-present
row (by the declared uniqueness constraint `key`) is a silent no-op, so
inserting the same collection of rows twice leaves the same table state as
inserting it once. -/
theorem c1_insert_or_ignore_idempotent :
    (∀ (table : String) (fields : List String),
      ∃ rest, get_insert_query table fields = "INSERT OR IGNORE INTO " ++ rest) ∧
    (∀ (α K : Type) (inst : DecidableEq K) (key : α → K) (t rows : List α),
      @executemanyIgnore α K inst key (@executemanyIgnore α K inst key t rows) rows =
        @executemanyIgnore α K inst key t rows) := by
  constructor
  · intro table fields
    exact ⟨_, rfl⟩
  · intro α K inst key t rows
    exact executemany_fixed key _ rows
      (fun r hr => hasKey_executemany_mem key t rows r hr)

/-- C5: the three opening-hours tokens of the spec parse to exactly the
stated records, and the weekday symbols map through the fixed seven-symbol
table with Monday = 1 through Sunday = 7. -/
theorem c5_opening_hours_parsing :
    add_opening_hour "ПН-ВС - Круглосуточно" =
      some { weekday_from := 1, weekday_to := 7,
             time_from := some "00:00", time_to := some "00:00" } ∧
    add_opening_hour "ВС - Выходной" =
      some { weekday_from := 7, weekday_to := 7,
             time_from := none, time_to := none } ∧
    add_opening_hour "ПН-ПТ - 09:00 18:00" =
      some { weekday_from := 1, weekday_to := 5,
             time_from := some "09:00", time_to := some "18:00" } ∧
    weekdayOrdinal "ПН".data = some 1 ∧ weekdayOrdinal "ВТ".data = some 2 ∧
    weekdayOrdinal "СР".data = some 3 ∧ weekdayOrdinal "ЧТ".data = some 4 ∧
    weekdayOrdinal "ПТ".data = some 5 ∧ weekdayOrdinal "СБ".data = some 6 ∧
    weekdayOrdinal "ВС".data = some 7 := by
  decide

/-- C8: in the `insert_data` trace, the five independent entity tables are
inserted before the first commit, `service_centers` between the first and
second commit, every id-map read-back after the second commit, and every
relationship/junction write after the second commit and after the
read-backs of the id maps its rows reference. -/
theorem c8_insert_data_dependency_order : insertDataOrdered = true := by
  decide


lemma setAdd_mem_iff (s : List String) (x y : String) :
    y ∈ setAdd s x ↔ y ∈ s ∨ y = x := by
  unfold setAdd
  split
  · rename_i hx
    constructor
    · exact Or.inl
    · rintro (h | rfl)
      · exact h
      · exact hx
  · simp [List.mem_append]

lemma metroTitle_ne (metro_text : String) :
    metroTitle metro_text ≠ "Новокрестовская" := by
  show (if dropPre metro_text "метро " = "Новокрестовская" then "Зенит"
    else dropPre metro_text "метро ") ≠ "Новокрестовская"
  split
  · decide
  · rename_i h
    exact h

lemma pyLookup_mem_keys {β : Type} (d : List (String × β)) (k : String)
    (h : (pyLookup d k).isSome = true) : k ∈ d.map Prod.fst := by
  induction d with
  | nil => simp [pyLookup] at h
  | cons p rest ih =>
    rw [pyLookup] at h
    split at h
    · rename_i hk
      simp [← hk]
    · simp only [List.map_cons, List.mem_cons]
      exact Or.inr (ih h)

lemma pyLookup_none_not_mem {β : Type} (d : List (String × β)) (k : String)
    (h : pyLookup d k = none) : k ∉ d.map Prod.fst := by
  induction d with
  | nil => simp
  | cons p rest ih =>
    rw [pyLookup] at h
    split at h
    · cases h
    · rename_i hk
      simp only [List.map_cons, List.mem_cons]
      rintro (rfl | hmem)
      · exact hk rfl
      · exact ih h hmem

lemma pyLookup_append_left {β : Type} (d l : List (String × β)) (k : String) (v : β)
    (h : pyLookup d k = some v) : pyLookup (d ++ l) k = some v := by
  induction d with
  | nil => simp [pyLookup] at h
  | cons p rest ih =>
    rw [pyLookup] at h
    rw [List.cons_append, pyLookup]
    split at h
    · rename_i hk
      rw [if_pos hk]
      exact h
    · rename_i hk
      rw [if_neg hk]
      exact ih h

lemma pyLookup_append_none {β : Type} (d : List (String × β)) (k : String) (v : β)
    (h : pyLookup d k = none) : pyLookup (d ++ [(k, v)]) k = some v := by
  induction d with
  | nil => simp [pyLookup]
  | cons p rest ih =>
    rw [pyLookup] at h
    rw [List.cons_append, pyLookup]
    split at h
    · cases h
    · rename_i hk
      rw [if_neg hk]
      exact ih h

lemma pyLookup_mapUpd_self {β : Type} (d : List (String × β)) (k : String) (v : β)
    (h : (pyLookup d k).isSome = true) :
    pyLookup (d.map (fun p => if p.1 = k then (k, v) else p)) k = some v := by
  induction d with
  | nil => simp [pyLookup] at h
  | cons p rest ih =>
    rw [pyLookup] at h
    rw [List.map_cons]
    split at h
    · rename_i hk
      rw [if_pos hk, pyLookup, if_pos rfl]
    · rename_i hk
      rw [if_neg hk, pyLookup, if_neg hk]
      exact ih h

lemma pyLookup_mapUpd_isSome {β : Type} (d : List (String × β)) (k k2 : String) (v : β) :
    (pyLookup (d.map (fun p => if p.1 = k then (k, v) else p)) k2).isSome =
      (pyLookup d k2).isSome := by
  induction d with
  | nil => rfl
  | cons p rest ih =>
    rw [List.map_cons, pyLookup, pyLookup]
    by_cases hk : p.1 = k
    · rw [if_pos hk]
      by_cases hk2 : p.1 = k2
      · rw [if_pos (show (k, v).1 = k2 by show k = k2; rw [← hk]; exact hk2), if_pos hk2]
        rfl
      · rw [if_neg (show ¬(k, v).1 = k2 by show ¬k = k2; rw [← hk]; exact hk2), if_neg hk2]
        exact ih
    · rw [if_neg hk]
      by_cases hk2 : p.1 = k2
      · rw [if_pos hk2, if_pos hk2]
      · rw [if_neg hk2, if_neg hk2]
        exact ih

lemma mapUpd_keys {β : Type} (d : List (String × β)) (k : String) (v : β) :
    (d.map (fun p => if p.1 = k then (k, v) else p)).map Prod.fst = d.map Prod.fst := by
  induction d with
  | nil => rfl
  | cons p rest ih =>
    rw [List.map_cons, List.map_cons, List.map_cons, ih]
    by_cases hk : p.1 = k
    · rw [if_pos hk, ← hk]
    · rw [if_neg hk]

lemma dictSet_keys_sub (d : List (String × String)) (k v x : String)
    (h : x ∈ (dictSet d k v).map Prod.fst) : x ∈ d.map Prod.fst ∨ x = k := by
  unfold dictSet at h
  split at h
  · rw [mapUpd_keys] at h
    exact Or.inl h
  · rw [List.map_append, List.mem_append] at h
    rcases h with h | h
    · exact Or.inl h
    · simp at h
      exact Or.inr h

lemma dictSet_key_mem (d : List (String × String)) (k v : String) :
    k ∈ (dictSet d k v).map Prod.fst := by
  unfold dictSet
  split
  · rename_i h
    rw [mapUpd_keys]
    exact pyLookup_mem_keys d k h
  · simp

/-- C10: `add_metro` normalizes metro titles — it strips the "метро " prefix
and rewrites "Новокрестовская" to "Зенит" — so neither the metros registry
nor the center's metro set ever gains the source title "Новокрестовская",
both spellings of that station store the key "Зенит", and for that one
metro the stored key differs from the source text. -/
theorem c10_metro_title_normalization (sc : SC) (metrosReg : List (String × String))
    (metro_text : String)
    (hsc : "Новокрестовская" ∉ sc.metros)
    (hreg : "Новокрестовская" ∉ metrosReg.map Prod.fst) :
    ("Новокрестовская" ∉ (add_metro sc metrosReg metro_text).1.metros ∧
     "Новокрестовская" ∉ (add_metro sc metrosReg metro_text).2.map Prod.fst) ∧
    ((add_metro sc metrosReg "метро Новокрестовская").1.metros = setAdd sc.metros "Зенит" ∧
     "Зенит" ∈ (add_metro sc metrosReg "метро Новокрестовская").2.map Prod.fst) ∧
    ((add_metro sc metrosReg "Новокрестовская").1.metros = setAdd sc.metros "Зенит") ∧
    ("Зенит" : String) ≠ "Новокрестовская" := by
  have hm1 : metroTitle "метро Новокрестовская" = "Зенит" := by decide
  have hm2 : metroTitle "Новокрестовская" = "Зенит" := by decide
  refine ⟨⟨?_, ?_⟩, ⟨?_, ?_⟩, ?_, by decide⟩
  · intro hmem
    rcases (setAdd_mem_iff sc.metros (metroTitle metro_text) _).mp hmem with h | h
    · exact hsc h
    · exact metroTitle_ne metro_text h.symm
  · intro hmem
    rcases dictSet_keys_sub metrosReg (metroTitle metro_text) (metroTitle metro_text)
        _ hmem with h | h
    · exact hreg h
    · exact metroTitle_ne metro_text h.symm
  · show setAdd sc.metros (metroTitle "метро Новокрестовская") = setAdd sc.metros "Зенит"
    rw [hm1]
  · show metroTitle "метро Новокрестовская" ∈
      (dictSet metrosReg (metroTitle "метро Новокрестовская")
        (metroTitle "метро Новокрестовская")).map Prod.fst
    exact dictSet_key_mem _ _ _
  · show setAdd sc.metros (metroTitle "Новокрестовская") = setAdd sc.metros "Зенит"
    rw [hm2]

/-- Witness for C10 at a concrete center, registry and metro tag. -/
theorem c10_metro_title_normalization_witness :
    "Новокрестовская" ∉ (add_metro (newSC "x") [("Озерки", "Озерки")] "метро Озерки").1.metros ∧
    (add_metro (newSC "x") [("Озерки", "Озерки")] "метро Новокрестовская").1.metros =
      setAdd (newSC "x").metros "Зенит" := by
  refine ⟨(c10_metro_title_normalization (newSC "x") [("Озерки", "Озерки")] "метро Озерки"
      (by decide) (by decide)).1.1, ?_⟩
  exact (c10_metro_title_normalization (newSC "x") [("Озерки", "Озерки")] "метро Новокрестовская"
      (by decide) (by decide)).2.1.1

lemma apb_map_keys (t : String) (l : List (String × Category)) :
    (l.map (fun p => if p.1 = t then (p.1, { p.2 with is_popular := true }) else p)).map
        Prod.fst = l.map Prod.fst := by
  induction l with
  | nil => rfl
  | cons p rest ih =>
    rw [List.map_cons, List.map_cons, List.map_cons, ih]
    by_cases h : p.1 = t
    · rw [if_pos h]
    · rw [if_neg h]

lemma apb_map_id (t : String) (l : List (String × Category)) (h : t ∉ l.map Prod.fst) :
    l.map (fun p => if p.1 = t then (p.1, { p.2 with is_popular := true }) else p) = l := by
  induction l with
  | nil => rfl
  | cons p rest ih =>
    simp only [List.map_cons, List.mem_cons] at h
    push_neg at h
    rw [List.map_cons, if_neg (fun he => h.1 he.symm), ih h.2]

lemma apb_zip_fields (t : String) (l : List (String × Category)) :
    ∀ p ∈ l.zip (l.map (fun p => if p.1 = t then (p.1, { p.2 with is_popular := true }) else p)),
      p.2.1 = p.1.1 ∧ p.2.2.title = p.1.2.title ∧ p.2.2.slug = p.1.2.slug ∧
      p.2.2.type = p.1.2.type ∧ p.2.2.thumbnail_url = p.1.2.thumbnail_url ∧
      p.2.2.brandsSet = p.1.2.brandsSet ∧ p.2.2.services = p.1.2.services ∧
      p.2.2.is_popular = (if p.1.1 = t then true else p.1.2.is_popular) := by
  induction l with
  | nil =>
    intro p hp
    cases hp
  | cons q rest ih =>
    intro p hp
    rw [List.map_cons, List.zip_cons_cons] at hp
    rcases List.mem_cons.mp hp with rfl | hp
    · by_cases h : q.1 = t <;> simp [h]
    · exact ih p hp

/-- C9: `add_popular_brand` keeps the registry's keys; when no brand has the
anchor's derived slug the registry is entirely unchanged (the popularity
flag is silently dropped, no brand is created); and entrywise every field
except `is_popular` is unchanged, with `is_popular` forced to true exactly
on the entry whose key equals the derived slug. -/
theorem c9_add_popular_brand_frame (brand_tag : AnchorTag)
    (brands : List (String × Category)) :
    ((add_popular_brand brand_tag brands).map Prod.fst = brands.map Prod.fst) ∧
    (slugify (get_category_title brand_tag) ∉ brands.map Prod.fst →
      add_popular_brand brand_tag brands = brands) ∧
    (∀ p ∈ brands.zip (add_popular_brand brand_tag brands),
      p.2.1 = p.1.1 ∧ p.2.2.title = p.1.2.title ∧ p.2.2.slug = p.1.2.slug ∧
      p.2.2.type = p.1.2.type ∧ p.2.2.thumbnail_url = p.1.2.thumbnail_url ∧
      p.2.2.brandsSet = p.1.2.brandsSet ∧ p.2.2.services = p.1.2.services ∧
      p.2.2.is_popular =
        (if p.1.1 = slugify (get_category_title brand_tag) then true
         else p.1.2.is_popular)) := by
  refine ⟨?_, ?_, ?_⟩
  · exact apb_map_keys (slugify (get_category_title brand_tag)) brands
  · intro h
    exact apb_map_id (slugify (get_category_title brand_tag)) brands h
  · exact apb_zip_fields (slugify (get_category_title brand_tag)) brands

/-- A minimal category dict for concrete witnesses. -/
def sampleCategory (t : String) (ty : CatType) : Category :=
  { title := t, slug := slugify t, type := ty, thumbnail_url := none,
    is_popular := false, brandsSet := none, services := none }

/-- A two-brand registry for concrete witnesses. -/
def sampleBrands : List (String × Category) :=
  [("apple", sampleCategory "Apple" CatType.brands),
   ("acer", sampleCategory "Acer" CatType.brands)]

/-- Witness for C9: a matching anchor keeps the keys, a non-matching anchor
leaves the registry untouched. -/
theorem c9_add_popular_brand_frame_witness :
    ((add_popular_brand { text := "Apple", img := none } sampleBrands).map Prod.fst =
      ["apple", "acer"]) ∧
    add_popular_brand { text := "Sony", img := none } sampleBrands = sampleBrands := by
  refine ⟨((c9_add_popular_brand_frame { text := "Apple", img := none } sampleBrands).1).trans
      (by decide), ?_⟩
  exact (c9_add_popular_brand_frame { text := "Sony", img := none } sampleBrands).2.1 (by decide)

lemma locWithPrimary_frame (sc : SC) (loc : LocationRec) :
    (locWithPrimary sc loc).address = loc.address ∧
    (locWithPrimary sc loc).coords = loc.coords := by
  unfold locWithPrimary
  cases sc.primary_address with
  | none => exact ⟨rfl, rfl⟩
  | some pa =>
    by_cases hpa : pa ≠ "" <;> simp [hpa]

lemma bindCoordsStep_address (l : LocationRec) (ca : String × String) :
    (bindCoordsStep l ca).address = l.address := by
  unfold bindCoordsStep
  split <;> rfl

lemma bindCoordsStep_coords (l : LocationRec) (ca : String × String) :
    (bindCoordsStep l ca).coords =
      if strContains ca.2 l.address then some ca.1 else l.coords := by
  unfold bindCoordsStep
  split <;> rfl

lemma bindCoords_foldl (cas : List (String × String)) (init : LocationRec) :
    (cas.foldl bindCoordsStep init).address = init.address ∧
    (cas.foldl bindCoordsStep init).coords =
      (match (cas.filter (fun ca => strContains ca.2 init.address)).getLast? with
       | some ca => some ca.1
       | none => init.coords) := by
  induction cas using List.reverseRecOn with
  | nil => exact ⟨rfl, rfl⟩
  | append_singleton cas x ih =>
    rw [List.foldl_append, List.foldl_cons, List.foldl_nil, List.filter_append]
    constructor
    · rw [bindCoordsStep_address, ih.1]
    · rw [bindCoordsStep_coords, ih.1]
      by_cases hx : strContains x.2 init.address
      · rw [if_pos hx]
        have hfil : List.filter (fun ca => strContains ca.2 init.address) [x] = [x] := by
          simp [List.filter, hx]
        rw [hfil, List.getLast?_concat]
      · rw [if_neg (by simpa using hx)]
        have hfil : List.filter (fun ca => strContains ca.2 init.address) [x] = [] := by
          simp [List.filter, hx]
        rw [hfil, List.append_nil]
        exact ih.2

/-- Counterexample to C6 as stated: with two coordinate records whose
address texts both contain the location's address, the code binds the
coordinates of the LAST matching record, while the spec's rule names the
first one. -/
theorem c6_coords_first_match_counterexample :
    ((add_location (newSC "x") "М-Улица Ленина 5"
        [("30.1 59.9", "СПб, Улица Ленина 5"),
         ("30.2 59.8", "СПб, Улица Ленина 51")]).map
      (fun sc2 => sc2.locations.map LocationRec.coords)) = some [some "30.2 59.8"] ∧
    coordsFirstMatchSpec
        [("30.1 59.9", "СПб, Улица Ленина 5"),
         ("30.2 59.8", "СПб, Улица Ленина 51")]
        "Улица Ленина 5" = some "30.1 59.9" ∧
    (some "30.2 59.8" : Option String) ≠ some "30.1 59.9" := by
  decide

/-- C6 amended: the location's `coords` field is bound to the LAST record
whose address text contains the location's address string (each match
overwrites the field); when no record matches, `coords` is left null. -/
theorem c6_coords_binding_amended (sc : SC) (location_text : String)
    (cas : List (String × String)) (metroCs addressCs : List Char)
    (h : split1Go "-".data location_text.data = some (metroCs, addressCs)) :
    ∃ sc2, add_location sc location_text cas = some sc2 ∧
      sc2.locations.length = sc.locations.length + 1 ∧
      sc2.locations.getLast?.map LocationRec.coords =
        some (coordsLastMatch cas ⟨addressCs⟩) ∧
      (cas.filter (fun ca => strContains ca.2 ⟨addressCs⟩) = [] →
        coordsLastMatch cas ⟨addressCs⟩ = none) := by
  have heq : add_location sc location_text cas =
      some { sc with locations := sc.locations ++
        [cas.foldl bindCoordsStep (locWithPrimary sc
          { coords := none, metro := dropPre ⟨metroCs⟩ "метро ",
            address := ⟨addressCs⟩, is_primary := false })] } := by
    unfold add_location
    rw [h]
  refine ⟨_, heq, ?_, ?_, ?_⟩
  · simp
  · show (sc.locations ++ [_]).getLast?.map LocationRec.coords = _
    rw [List.getLast?_concat]
    have hfold := bindCoords_foldl cas (locWithPrimary sc
      { coords := none, metro := dropPre ⟨metroCs⟩ "метро ",
        address := ⟨addressCs⟩, is_primary := false })
    have haddr : (locWithPrimary sc
        { coords := none, metro := dropPre ⟨metroCs⟩ "метро ",
          address := ⟨addressCs⟩, is_primary := false }).address = (⟨addressCs⟩ : String) :=
      (locWithPrimary_frame sc _).1
    have hcoords : (locWithPrimary sc
        { coords := none, metro := dropPre ⟨metroCs⟩ "метро ",
          address := ⟨addressCs⟩, is_primary := false }).coords = none :=
      (locWithPrimary_frame sc _).2
    rw [haddr, hcoords] at hfold
    rw [Option.map_some', hfold.2]
    unfold coordsLastMatch
    cases (cas.filter (fun ca => strContains ca.2 (⟨addressCs⟩ : String))).getLast? with
    | none => rfl
    | some ca => rfl
  · intro hfil
    unfold coordsLastMatch
    rw [hfil]
    rfl

/-- Witness for C6 amended at a concrete page with one matching record. -/
theorem c6_coords_binding_amended_witness :
    (add_location (newSC "y") "М-Аврора 3" [("10 20", "ТЦ Аврора 3")]).map
      (fun sc2 => sc2.locations.getLast?.map LocationRec.coords) = some (some (some "10 20")) := by
  obtain ⟨sc2, h1, _, h3, _⟩ := c6_coords_binding_amended (newSC "y") "М-Аврора 3"
    [("10 20", "ТЦ Аврора 3")] "М".data "Аврора 3".data (by decide)
  rw [h1, Option.map_some', h3]
  have : coordsLastMatch [("10 20", "ТЦ Аврора 3")] (⟨"Аврора 3".data⟩ : String) =
      some "10 20" := by decide
  rw [this]

/-- An anchor for the "Phones" category with no thumbnail. -/
def phonesTagPlain : AnchorTag := { text := "Phones", img := none }

/-- An anchor for the same "Phones" category carrying a thumbnail. -/
def phonesTagThumb : AnchorTag :=
  { text := "Phones", img := some { alt := "x", src := some "p.png", dataSrc := none } }

/-- The registries after first registering "Phones" from the plain anchor. -/
def phonesRegs1 : CatRegs :=
  (add_category CatType.devices phonesTagPlain { brands := [], devices := [] }).1

/-- Re-registering "Phones" from the thumbnail anchor. -/
def phonesStep2 : CatRegs × Category := add_category CatType.devices phonesTagThumb phonesRegs1

/-- Counterexample to C4 as stated: when the key already exists,
`add_category` does NOT return the entity stored in the registry — it
returns the freshly built dict (here carrying a thumbnail the stored entry
lacks) and reports no created flag at all. -/
theorem c4_returns_stored_counterexample :
    phonesStep2.2.thumbnail_url = some "p.png" ∧
    (pyLookup phonesStep2.1.devices "phones").map Category.thumbnail_url = some none ∧
    some phonesStep2.2 ≠ pyLookup phonesStep2.1.devices "phones" := by
  decide

/-- C4 amended: `add_service_center` behaves as claimed — on a present key
it returns the stored entity (with every scalar field set at creation
unchanged and only a relationship set touched), reports created = false and
keeps the registry's keys.  `add_category`, however, merely leaves the
registry unchanged on a present key (first-write-wins for the stored
entity) while returning the freshly built category dict and reporting no
flag. -/
theorem c4_first_write_wins_amended :
    (∀ (card : SCCard) (cat : Category) (regs : List (String × SC)) (sc0 : SC),
      pyLookup regs (slugify card.title) = some sc0 →
      (add_service_center card cat regs).2.2 = false ∧
      pyLookup (add_service_center card cat regs).1 (slugify card.title) =
        some (add_service_center card cat regs).2.1 ∧
      (add_service_center card cat regs).2.1.title = sc0.title ∧
      (add_service_center card cat regs).2.1.phone = sc0.phone ∧
      (add_service_center card cat regs).2.1.slogan = sc0.slogan ∧
      (add_service_center card cat regs).2.1.logo = sc0.logo ∧
      (add_service_center card cat regs).2.1.site_url = sc0.site_url ∧
      (add_service_center card cat regs).2.1.description = sc0.description ∧
      (add_service_center card cat regs).2.1.slug = sc0.slug ∧
      (add_service_center card cat regs).2.1.primary_address = sc0.primary_address ∧
      (add_service_center card cat regs).1.map Prod.fst = regs.map Prod.fst) ∧
    (∀ (tag : AnchorTag) (regs : CatRegs),
      ((pyLookup regs.devices (mkCategory CatType.devices tag).slug).isSome = true →
        add_category CatType.devices tag regs = (regs, mkCategory CatType.devices tag)) ∧
      ((pyLookup regs.brands (mkCategory CatType.brands tag).slug).isSome = true →
        add_category CatType.brands tag regs = (regs, mkCategory CatType.brands tag))) := by
  constructor
  · intro card cat regs sc0 h
    have hsome : (pyLookup regs (slugify card.title)).isSome = true := by
      rw [h]
      rfl
    have hscalars : ∀ sc : SC,
        (addCategoryMembership sc cat).title = sc.title ∧
        (addCategoryMembership sc cat).phone = sc.phone ∧
        (addCategoryMembership sc cat).slogan = sc.slogan ∧
        (addCategoryMembership sc cat).logo = sc.logo ∧
        (addCategoryMembership sc cat).site_url = sc.site_url ∧
        (addCategoryMembership sc cat).description = sc.description ∧
        (addCategoryMembership sc cat).slug = sc.slug ∧
        (addCategoryMembership sc cat).primary_address = sc.primary_address := by
      intro sc
      cases hct : cat.type <;> simp [addCategoryMembership, hct]
    have hred : add_service_center card cat regs =
        (updateSC regs (slugify card.title) (addCategoryMembership sc0 cat),
         addCategoryMembership sc0 cat, false) := by
      simp only [add_service_center, h]
    rw [hred]
    obtain ⟨e1, e2, e3, e4, e5, e6, e7, e8⟩ := hscalars sc0
    refine ⟨rfl, ?_, e1, e2, e3, e4, e5, e6, e7, e8, ?_⟩
    · show pyLookup (updateSC regs (slugify card.title) (addCategoryMembership sc0 cat))
        (slugify card.title) = some (addCategoryMembership sc0 cat)
      unfold updateSC
      exact pyLookup_mapUpd_self regs (slugify card.title) _ hsome
    · show (updateSC regs (slugify card.title) (addCategoryMembership sc0 cat)).map
        Prod.fst = regs.map Prod.fst
      unfold updateSC
      exact mapUpd_keys regs (slugify card.title) _
  · intro tag regs
    constructor
    · intro h
      simp only [add_category]
      rw [if_pos h]
    · intro h
      simp only [add_category]
      rw [if_pos h]

/-- A service center already enriched, for concrete witnesses. -/
def c4SampleSC : SC := { newSC "fix-it" with title := some "T", phone := some "5" }

/-- A one-entry registry for concrete witnesses. -/
def c4SampleRegs : List (String × SC) := [("fix-it", c4SampleSC)]

/-- Witness for C4 amended at a concrete existing key for both upserts. -/
theorem c4_first_write_wins_amended_witness :
    (add_service_center { title := "Fix It" } (sampleCategory "Phones" CatType.devices)
        c4SampleRegs).2.2 = false ∧
    (add_service_center { title := "Fix It" } (sampleCategory "Phones" CatType.devices)
        c4SampleRegs).2.1.title = some "T" ∧
    add_category CatType.devices phonesTagThumb phonesRegs1 =
      (phonesRegs1, mkCategory CatType.devices phonesTagThumb) := by
  have hA := c4_first_write_wins_amended.1 { title := "Fix It" }
    (sampleCategory "Phones" CatType.devices) c4SampleRegs c4SampleSC (by decide)
  refine ⟨hA.1, hA.2.2.1.trans (by decide), ?_⟩
  exact (c4_first_write_wins_amended.2 phonesTagThumb phonesRegs1).1 (by decide)

lemma asc_flag (card : SCCard) (cat : Category) (regs : List (String × SC)) :
    (add_service_center card cat regs).2.2 =
      (pyLookup regs (slugify card.title)).isNone := by
  cases h : pyLookup regs (slugify card.title) with
  | none => simp only [add_service_center, h, Option.isNone_none]
  | some sc0 => simp only [add_service_center, h, Option.isNone_some]

lemma asc_lookup_self (card : SCCard) (cat : Category) (regs : List (String × SC)) :
    (pyLookup (add_service_center card cat regs).1 (slugify card.title)).isSome = true := by
  cases h : pyLookup regs (slugify card.title) with
  | none =>
    simp only [add_service_center, h]
    rw [pyLookup_append_none regs (slugify card.title) _ h]
    rfl
  | some sc0 =>
    simp only [add_service_center, h]
    show (pyLookup (updateSC regs (slugify card.title) _) (slugify card.title)).isSome = true
    unfold updateSC
    rw [pyLookup_mapUpd_self regs (slugify card.title) _ (by rw [h]; rfl)]
    rfl

lemma asc_keys_mono (card : SCCard) (cat : Category) (regs : List (String × SC))
    (s2 : String) (h2 : (pyLookup regs s2).isSome = true) :
    (pyLookup (add_service_center card cat regs).1 s2).isSome = true := by
  cases h : pyLookup regs (slugify card.title) with
  | none =>
    simp only [add_service_center, h]
    obtain ⟨v, hv⟩ := Option.isSome_iff_exists.mp h2
    rw [pyLookup_append_left regs _ s2 v hv]
    rfl
  | some sc0 =>
    simp only [add_service_center, h]
    show (pyLookup (updateSC regs (slugify card.title) _) s2).isSome = true
    unfold updateSC
    rw [pyLookup_mapUpd_isSome]
    exact h2

lemma psc_flag (enrich : SC → SC) (regs : List (String × SC)) (sc_card : SCCard)
    (category : Category) :
    (parse_service_center enrich regs sc_card category).2 =
      (pyLookup regs (slugify sc_card.title)).isNone := by
  simp only [parse_service_center]
  rw [← asc_flag sc_card category regs]
  split
  · rename_i h
    exact h.symm
  · rename_i h
    exact (Bool.not_eq_true _).mp h |>.symm

lemma psc_keys_mono (enrich : SC → SC) (regs : List (String × SC)) (sc_card : SCCard)
    (category : Category) (s2 : String) (h2 : (pyLookup regs s2).isSome = true) :
    (pyLookup (parse_service_center enrich regs sc_card category).1 s2).isSome = true := by
  simp only [parse_service_center]
  split
  · show (pyLookup (updateSC _ _ _) s2).isSome = true
    unfold updateSC
    rw [pyLookup_mapUpd_isSome]
    exact asc_keys_mono sc_card category regs s2 h2
  · exact asc_keys_mono sc_card category regs s2 h2

lemma psc_self_present (enrich : SC → SC) (regs : List (String × SC)) (sc_card : SCCard)
    (category : Category) :
    (pyLookup (parse_service_center enrich regs sc_card category).1
      (slugify sc_card.title)).isSome = true := by
  simp only [parse_service_center]
  split
  · show (pyLookup (updateSC _ _ _) (slugify sc_card.title)).isSome = true
    unfold updateSC
    rw [pyLookup_mapUpd_isSome]
    exact asc_lookup_self sc_card category regs
  · exact asc_lookup_self sc_card category regs

lemma runParse_all_false (enrich : SC → SC) (calls : List (SCCard × Category)) (s : String)
    (hslug : ∀ p ∈ calls, slugify p.1.title = s) :
    ∀ regs : List (String × SC), (pyLookup regs s).isSome = true →
      (runParse enrich regs calls).2 = List.replicate calls.length false := by
  induction calls with
  | nil =>
    intro regs _
    rfl
  | cons pc rest ih =>
    intro regs h
    obtain ⟨c, cat⟩ := pc
    have hs : slugify c.title = s := hslug (c, cat) (List.mem_cons_self _ _)
    have hflag : (parse_service_center enrich regs c cat).2 = false := by
      rw [psc_flag, hs]
      obtain ⟨v, hv⟩ := Option.isSome_iff_exists.mp h
      rw [hv]
      rfl
    have hpres : (pyLookup (parse_service_center enrich regs c cat).1 s).isSome = true :=
      psc_keys_mono enrich regs c cat s h
    show (parse_service_center enrich regs c cat).2 ::
        (runParse enrich (parse_service_center enrich regs c cat).1 rest).2 =
      List.replicate (rest.length + 1) false
    rw [hflag, List.replicate_succ,
      ih (fun p hp => hslug p (List.mem_cons_of_mem _ hp)) _ hpres]

lemma count_true_replicate_false (n : Nat) :
    (List.replicate n false).count true = 0 := by
  induction n with
  | zero => rfl
  | succ n ih => rw [List.replicate_succ, List.count_cons, ih]; rfl

/-- C2: for a sequence of `parse_service_center` calls whose cards all
slugify to the same key, absent from the registry at the start, exactly the
first call observes created = true and every later call observes
created = false; since the detail-page enrichment runs only when
created = true, it runs at most once for that ServiceCenter slug. -/
theorem c2_enrichment_once_per_slug (enrich : SC → SC) (regs : List (String × SC))
    (calls : List (SCCard × Category)) (s : String)
    (hslug : ∀ p ∈ calls, slugify p.1.title = s)
    (hnew : pyLookup regs s = none) :
    (runParse enrich regs calls).2 =
      (match calls with
       | [] => []
       | _ :: rest => true :: List.replicate rest.length false) ∧
    (runParse enrich regs calls).2.count true ≤ 1 := by
  cases calls with
  | nil => exact ⟨rfl, Nat.zero_le 1⟩
  | cons pc rest =>
    obtain ⟨c, cat⟩ := pc
    have hs : slugify c.title = s := hslug (c, cat) (List.mem_cons_self _ _)
    have hflag : (parse_service_center enrich regs c cat).2 = true := by
      rw [psc_flag, hs, hnew]
      rfl
    have hpres : (pyLookup (parse_service_center enrich regs c cat).1 s).isSome = true := by
      rw [← hs]
      exact psc_self_present enrich regs c cat
    have hrest : (runParse enrich (parse_service_center enrich regs c cat).1 rest).2 =
        List.replicate rest.length false :=
      runParse_all_false enrich rest s (fun p hp => hslug p (List.mem_cons_of_mem _ hp))
        _ hpres
    have hflags : (runParse enrich regs ((c, cat) :: rest)).2 =
        true :: List.replicate rest.length false := by
      show (parse_service_center enrich regs c cat).2 ::
          (runParse enrich (parse_service_center enrich regs c cat).1 rest).2 = _
      rw [hflag, hrest]
    refine ⟨hflags, ?_⟩
    rw [hflags, List.count_cons, count_true_replicate_false]
    simp

/-- A concrete enrichment step for witnesses: the detail page sets title
and phone. -/
def wEnrich : SC → SC := fun sc => { sc with title := some "T", phone := some "111" }

/-- Two listing cards with the same title seen from two categories. -/
def wCalls : List (SCCard × Category) :=
  [({ title := "Fix It" }, sampleCategory "Phones" CatType.devices),
   ({ title := "Fix It" }, sampleCategory "Apple" CatType.brands)]

/-- Witness for C2: two same-slug discoveries — created flags [true, false],
enrichment ran once. -/
theorem c2_enrichment_once_per_slug_witness :
    (runParse wEnrich [] wCalls).2 = [true, false] ∧
    (runParse wEnrich [] wCalls).2.count true ≤ 1 := by
  have h := c2_enrichment_once_per_slug wEnrich [] wCalls "fix-it"
    (by decide) (by decide)
  exact ⟨h.1.trans (by decide), h.2⟩

/-- The relationship set of a service center selected by a category type
(the dict access `sc[category['type']]`). -/
def scTypeSet (sc : SC) : CatType → List String
  | CatType.devices => sc.devices
  | CatType.brands => sc.brands

lemma setAdd_mem_self (s : List String) (x : String) : x ∈ setAdd s x :=
  (setAdd_mem_iff s x x).mpr (Or.inr rfl)

lemma mem_addCategoryMembership_self (sc : SC) (cat : Category) :
    cat.slug ∈ scTypeSet (addCategoryMembership sc cat) cat.type := by
  cases hct : cat.type <;>
    simp only [addCategoryMembership, hct, scTypeSet] <;>
    exact setAdd_mem_self _ _

lemma mem_addCategoryMembership_mono (sc : SC) (cat : Category) (ty : CatType)
    (x : String) (h : x ∈ scTypeSet sc ty) :
    x ∈ scTypeSet (addCategoryMembership sc cat) ty := by
  cases hct : cat.type <;> cases ty <;>
    simp only [addCategoryMembership, hct, scTypeSet] at h ⊢ <;>
    first
    | exact h
    | exact (setAdd_mem_iff _ _ _).mpr (Or.inl h)

/-- C3: two cards whose titles slugify to the same key, processed through
`add_service_center` with possibly different categories, leave exactly one
entity under that key, the entity returned by the second call is the stored
one, and its category-relationship sets contain the category slugs of both
sightings. -/
theorem c3_same_slug_single_entity_union (card1 card2 : SCCard) (cat1 cat2 : Category)
    (regs : List (String × SC)) (s : String)
    (h1 : slugify card1.title = s) (h2 : slugify card2.title = s)
    (hnew : pyLookup regs s = none) :
    ((add_service_center card2 cat2
        (add_service_center card1 cat1 regs).1).1.map Prod.fst).count s = 1 ∧
    pyLookup (add_service_center card2 cat2 (add_service_center card1 cat1 regs).1).1 s =
      some (add_service_center card2 cat2 (add_service_center card1 cat1 regs).1).2.1 ∧
    cat1.slug ∈ scTypeSet
      (add_service_center card2 cat2 (add_service_center card1 cat1 regs).1).2.1 cat1.type ∧
    cat2.slug ∈ scTypeSet
      (add_service_center card2 cat2 (add_service_center card1 cat1 regs).1).2.1 cat2.type := by
  have e1 : add_service_center card1 cat1 regs =
      (regs ++ [(s, addCategoryMembership (newSC s) cat1)],
       addCategoryMembership (newSC s) cat1, true) := by
    simp only [add_service_center, h1, hnew]
  have hr1 : pyLookup (regs ++ [(s, addCategoryMembership (newSC s) cat1)]) s =
      some (addCategoryMembership (newSC s) cat1) :=
    pyLookup_append_none regs s _ hnew
  have e2 : add_service_center card2 cat2
        (regs ++ [(s, addCategoryMembership (newSC s) cat1)]) =
      (updateSC (regs ++ [(s, addCategoryMembership (newSC s) cat1)]) s
         (addCategoryMembership (addCategoryMembership (newSC s) cat1) cat2),
       addCategoryMembership (addCategoryMembership (newSC s) cat1) cat2, false) := by
    simp only [add_service_center, h2, hr1]
  rw [e1]
  rw [e2]
  refine ⟨?_, ?_, ?_, ?_⟩
  · show ((updateSC (regs ++ [(s, addCategoryMembership (newSC s) cat1)]) s _).map
      Prod.fst).count s = 1
    unfold updateSC
    rw [mapUpd_keys, List.map_append, List.count_append]
    have hzero : (regs.map Prod.fst).count s = 0 :=
      List.count_eq_zero.mpr (pyLookup_none_not_mem regs s hnew)
    rw [hzero]
    simp [List.count_cons]
  · show pyLookup (updateSC (regs ++ [(s, addCategoryMembership (newSC s) cat1)]) s _) s =
      some _
    unfold updateSC
    exact pyLookup_mapUpd_self _ s _ (by rw [hr1]; rfl)
  · exact mem_addCategoryMembership_mono _ cat2 cat1.type cat1.slug
      (mem_addCategoryMembership_self (newSC s) cat1)
  · exact mem_addCategoryMembership_self _ cat2

/-- Witness for C3: the same title from a device category and a brand
category merges into one entity whose sets hold both slugs. -/
theorem c3_same_slug_single_entity_union_witness :
    ((add_service_center { title := "Fix It" } (sampleCategory "Apple" CatType.brands)
        (add_service_center { title := "Fix It" } (sampleCategory "Phones" CatType.devices)
          []).1).1.map Prod.fst).count "fix-it" = 1 ∧
    "phones" ∈ (add_service_center { title := "Fix It" } (sampleCategory "Apple" CatType.brands)
        (add_service_center { title := "Fix It" } (sampleCategory "Phones" CatType.devices)
          []).1).2.1.devices ∧
    "apple" ∈ (add_service_center { title := "Fix It" } (sampleCategory "Apple" CatType.brands)
        (add_service_center { title := "Fix It" } (sampleCategory "Phones" CatType.devices)
          []).1).2.1.brands := by
  have h := c3_same_slug_single_entity_union { title := "Fix It" } { title := "Fix It" }
    (sampleCategory "Phones" CatType.devices) (sampleCategory "Apple" CatType.brands)
    [] "fix-it" (by decide) (by decide) (by decide)
  refine ⟨h.1, ?_, ?_⟩
  · have hm := h.2.2.1
    have hslug : (sampleCategory "Phones" CatType.devices).slug = "phones" := by decide
    rw [hslug] at hm
    exact hm
  · have hm := h.2.2.2
    have hslug : (sampleCategory "Apple" CatType.brands).slug = "apple" := by decide
    rw [hslug] at hm
    exact hm

lemma mapE_ok_of_forall {α β : Type} (f : α → Except String β) (l : List α)
    (h : ∀ a ∈ l, ∃ b, f a = Except.ok b) : ∃ bs, mapE f l = Except.ok bs := by
  induction l with
  | nil => exact ⟨[], rfl⟩
  | cons a rest ih =>
    obtain ⟨b, hb⟩ := h a (List.mem_cons_self _ _)
    obtain ⟨bs, hbs⟩ := ih (fun x hx => h x (List.mem_cons_of_mem _ hx))
    exact ⟨b :: bs, by rw [mapE, hb, hbs]⟩

lemma mapE_ok_forall {α β : Type} (f : α → Except String β) (l : List α) (bs : List β)
    (h : mapE f l = Except.ok bs) : ∀ a ∈ l, ∃ b, f a = Except.ok b := by
  induction l generalizing bs with
  | nil =>
    intro a ha
    cases ha
  | cons a2 rest ih =>
    intro a ha
    rw [mapE] at h
    cases hf : f a2 with
    | error e =>
      rw [hf] at h
      cases h
    | ok b =>
      rw [hf] at h
      cases hm : mapE f rest with
      | error e =>
        rw [hm] at h
        cases h
      | ok bs2 =>
        rw [hm] at h
        rcases List.mem_cons.mp ha with rfl | ha2
        · exact ⟨b, hf⟩
        · exact ih bs2 hm a ha2

lemma lookupE_ok_of_isSome (m : List (String × Nat)) (k : String)
    (h : (pyLookup m k).isSome = true) : ∃ v, lookupE m k = Except.ok v := by
  obtain ⟨v, hv⟩ := Option.isSome_iff_exists.mp h
  exact ⟨v, by rw [lookupE, hv]⟩

lemma lookupE_error_of_none (m : List (String × Nat)) (k : String)
    (h : pyLookup m k = none) : lookupE m k = Except.error k := by
  rw [lookupE, h]

/-- Counterexample to C7 as stated: a center related to metro "B" whose
title is absent from the metro id map makes `insert_service_centers_metros`
raise `KeyError("B")` — no row of that table is written and the error
propagates, instead of the single row being skipped. -/
theorem c7_missing_key_skip_counterexample :
    insert_service_centers_metros [("sc1", 1)] [("A", 10)]
      [("sc1", { newSC "sc1" with metros := ["A", "B"] })] [] = Except.error "B" := by
  rfl

/-- C7 amended: only `insert_locations` treats an unresolved metro key as a
per-row skip — the row is built with a null `metro_id` (via `.get`) and the
store's NOT NULL + OR IGNORE drops exactly that row while later rows
continue — whereas the junction inserts (here
`insert_service_centers_metros`) subscript the id map directly, so one
unresolved key raises a `KeyError` that aborts that table's entire insert. -/
theorem c7_missing_key_resolution_amended :
    (∀ (scIds metroIds : List (String × Nat)) (scs : List (String × SC)) (t : List LocRow),
      (∀ p ∈ scLocPairs scs, (pyLookup scIds p.1).isSome = true) →
      ∃ t2, insert_locations scIds metroIds scs t = Except.ok t2) ∧
    (∀ (t : List LocRow) (r : LocRow) (rest : List LocRow), r.metro_id = none →
      List.foldl insertLocRow t (r :: rest) = List.foldl insertLocRow t rest) ∧
    (∀ (scIds metroIds : List (String × Nat)) (scs : List (String × SC)) (t : List MetroScRow),
      (∃ p ∈ scMetroPairs scs, pyLookup metroIds p.2 = none) →
      (insert_service_centers_metros scIds metroIds scs t).toOption = none) := by
  refine ⟨?_, ?_, ?_⟩
  · intro scIds metroIds scs t hres
    have hrows : ∃ rows, mapE (fun (p : String × LocationRec) =>
        match lookupE scIds p.1 with
        | Except.error e => Except.error e
        | Except.ok scId => Except.ok {
            service_center_id := scId
            metro_id := pyLookup metroIds p.2.metro
            address := p.2.address
            coords := p.2.coords
            is_primary := p.2.is_primary : LocRow })
        (scLocPairs scs) = Except.ok rows := by
      refine mapE_ok_of_forall _ _ (fun p hp => ?_)
      obtain ⟨v, hv⟩ := lookupE_ok_of_isSome scIds p.1 (hres p hp)
      exact ⟨_, by rw [hv]⟩
    obtain ⟨rows, hrows⟩ := hrows
    refine ⟨rows.foldl insertLocRow t, ?_⟩
    rw [insert_locations, hrows]
  · intro t r rest h
    rw [List.foldl_cons]
    have hr : insertLocRow t r = t := by
      rw [insertLocRow, if_pos h]
    rw [hr]
  · intro scIds metroIds scs t hmiss
    obtain ⟨p, hp, hnone⟩ := hmiss
    cases hm : mapE (fun (p : String × String) =>
        match lookupE scIds p.1 with
        | Except.error e => Except.error e
        | Except.ok scId =>
          match lookupE metroIds p.2 with
          | Except.error e => Except.error e
          | Except.ok mId => Except.ok { service_center_id := scId, metro_id := mId : MetroScRow })
        (scMetroPairs scs) with
    | error e =>
      rw [insert_service_centers_metros, hm]
      rfl
    | ok rows =>
      exfalso
      obtain ⟨b, hb⟩ := mapE_ok_forall _ _ rows hm p hp
      cases hsc : lookupE scIds p.1 with
      | error e =>
        rw [hsc] at hb
        cases hb
      | ok scId =>
        rw [hsc, lookupE_error_of_none metroIds p.2 hnone] at hb
        cases hb

/-- Witness for C7 amended: an unresolved metro builds a null-metro row that
the store drops while the rest of the table is written, and the same
situation makes the metro junction insert fail whole. -/
theorem c7_missing_key_resolution_amended_witness :
    (∃ t2, insert_locations [("sc1", 1)] []
      [("sc1", { newSC "sc1" with locations :=
        [{ coords := none, metro := "X", address := "a1", is_primary := false }] })] [] =
      Except.ok t2) ∧
    List.foldl insertLocRow []
      [{ service_center_id := 1, metro_id := none, address := "a1", coords := none,
         is_primary := false },
       { service_center_id := 1, metro_id := some 10, address := "a2", coords := none,
         is_primary := false }] =
    List.foldl insertLocRow []
      [{ service_center_id := 1, metro_id := some 10, address := "a2", coords := none,
         is_primary := false }] ∧
    (insert_service_centers_metros [("sc1", 1)] [("A", 10)]
      [("sc1", { newSC "sc1" with metros := ["A", "B"] })] []).toOption = none := by
  refine ⟨?_, ?_, ?_⟩
  · exact c7_missing_key_resolution_amended.1 [("sc1", 1)] []
      [("sc1", { newSC "sc1" with locations :=
        [{ coords := none, metro := "X", address := "a1", is_primary := false }] })] []
      (by decide)
  · exact c7_missing_key_resolution_amended.2.1 [] _ _ rfl
  · exact c7_missing_key_resolution_amended.2.2 [("sc1", 1)] [("A", 10)]
      [("sc1", { newSC "sc1" with metros := ["A", "B"] })] [] (by decide)
